import Mathlib

/-!
Shallow embedding of the pothole-detection backend service
(Backend/app.py): the predict, generate_complaint, generate_pdf and
send_email HTTP handlers.  The external libraries the handlers call
(cv2, PIL, the YOLO model, base64, reportlab, smtplib, the filesystem)
are modelled as oracle functions gathered in the Ext structure, and the
environment-derived configuration lives in Config.  Filesystem writes
and reads are tracked as explicit event lists so that frame properties
can be stated.
-/

set_option maxRecDepth 100000

namespace PotholeApp

/-- Opaque byte payloads: raw image bytes, encoded images, file contents. -/
abbrev Bytes := List Nat

/-- Opaque decoded pixel buffers (numpy arrays in the source). -/
abbrev Img := List Nat

/-- Boolean prefix test on character lists. -/
def isPrefixL : List Char → List Char → Bool
  | [], _ => true
  | _ :: _, [] => false
  | a :: as, b :: bs => a = b && isPrefixL as bs

/-- Boolean infix (contiguous substring) test on character lists. -/
def isInfixL (sub : List Char) : List Char → Bool
  | [] => isPrefixL sub []
  | c :: rest => isPrefixL sub (c :: rest) || isInfixL sub rest

/-- String starts-with test, Python str.startswith. -/
def strStarts (pre s : String) : Bool := isPrefixL pre.data s.data

/-- String substring-containment test, the Python operator in. -/
def strContains (s sub : String) : Bool := isInfixL sub.data s.data

/-- If old is a prefix of l, return the remainder of l after it. -/
def dropPre : List Char → List Char → Option (List Char)
  | [], l => some l
  | _ :: _, [] => none
  | a :: as, b :: bs => if a = b then dropPre as bs else none

/-- Replace every non-overlapping occurrence of old by new, scanning left
to right, with explicit fuel for structural recursion; every step consumes
at least one character, so fuel equal to the list length never runs out. -/
def replaceGo (old new : List Char) : Nat → List Char → List Char
  | _, [] => []
  | 0, l => l
  | fuel + 1, c :: rest =>
    match old, dropPre old (c :: rest) with
    | _ :: os, some _ => new ++ replaceGo old new fuel (rest.drop os.length)
    | _, _ => c :: replaceGo old new fuel rest

/-- Replace every non-overlapping occurrence of old by new, scanning left
to right: Python str.replace on character lists. -/
def replaceL (old new : List Char) (l : List Char) : List Char :=
  replaceGo old new l.length l

/-- Python str.replace for strings. -/
def strReplace (s old new : String) : String :=
  String.mk (replaceL old.data new.data s.data)

/-- Python os.path.join for the two-argument uses in the source. -/
def pathJoin (a b : String) : String :=
  if strStarts "/" b then b
  else if a = "" || a.data.getLast? = some '/' then a ++ b
  else a ++ "/" ++ b

/-- Python split on a single character, producing the separated pieces. -/
def splitOnChar (c : Char) : List Char → List (List Char)
  | [] => [[]]
  | a :: rest =>
    let r := splitOnChar c rest
    if a = c then [] :: r
    else
      match r with
      | h :: t => (a :: h) :: t
      | [] => [[a]]

/-- Python os.path.basename: the part after the last slash. -/
def basenameP (p : String) : String :=
  String.mk ((splitOnChar '/' p.data).getLastD p.data)

/-- Index of the last dot in a character list, if any. -/
def lastDotIdx : List Char → Option Nat
  | [] => none
  | c :: rest =>
    match lastDotIdx rest with
    | some i => some (i + 1)
    | none => if c = '.' then some 0 else none

/-- Python os.path.splitext, second component: the extension including its
dot, empty when the basename has only leading dots before the last dot. -/
def splitextExt (p : String) : String :=
  let b := (basenameP p).data
  match lastDotIdx b with
  | none => ""
  | some i => if (b.take i).any (fun c => c ≠ '.') then String.mk (b.drop i) else ""

/-- MIME subtype inferred from a file path, lines 325-326 of app.py:
lowercased extension without its dot, jpg and jpeg mapped to jpeg and an
empty extension to octet-stream. -/
def extSubtype (filepath : String) : String :=
  let e := String.mk (((splitextExt filepath).data.map Char.toLower).dropWhile (fun c => c = '.'))
  if e = "jpg" || e = "jpeg" then "jpeg" else if e = "" then "octet-stream" else e

/-- Split a character list at the first comma, Python split with maxsplit 1. -/
def breakAtComma : List Char → Option (List Char × List Char)
  | [] => none
  | c :: rest =>
    if c = ',' then some ([], rest)
    else
      match breakAtComma rest with
      | none => none
      | some (a, b) => some (c :: a, b)

/-- Python data_uri.split with separator comma and maxsplit 1, returning
none when there is no comma (where the Python tuple unpacking raises). -/
def splitFirstComma (s : String) : Option (String × String) :=
  match breakAtComma s.data with
  | none => none
  | some (a, b) => some (String.mk a, String.mk b)

/-- Python str.rstrip with no argument: drop trailing whitespace. -/
def rstripLine (l : List Char) : List Char :=
  (l.reverse.dropWhile Char.isWhitespace).reverse

/-- Filesystem access events performed by a handler. -/
inductive FsEvent
  | write (path : String)
  | read (path : String)
deriving DecidableEq, Repr

/-- One entry of the results list returned by the predict endpoint. -/
structure ResultRecord where
  original_filename : String
  result_image_data_uri : String
  result_image_url : Option String
  count : Nat
  detections : List String
deriving DecidableEq, Repr

/-- Body of the predict endpoint response: either the results list or a
JSONResponse error with an HTTP status code and a message. -/
inductive PredictResponse
  | ok (results : List ResultRecord)
  | httpError (status : Nat) (message : String)
deriving DecidableEq, Repr

/-- Request model of the complaint generator, with the pydantic defaults
of lines 182-189; none models an explicit JSON null. -/
structure ComplaintRequest where
  pothole_count : Int
  road_name : Option String := some ""
  area : Option String := some ""
  city : Option String := some ""
  user_name : Option String := some "Concerned Citizen"
  authority_name : Option String := some "Municipal Commissioner"
  extra_details : Option String := some ""
deriving DecidableEq, Repr

/-- Body of the generate_pdf endpoint response. -/
structure PdfResponse where
  pdf_url : Option String
  pdf_data_uri : String
deriving DecidableEq, Repr

/-- Request model of the email endpoint. -/
structure EmailRequest where
  to_email : String
  subject : String
  body : String
  image_urls : List String := []
  image_data_b64 : List String := []
deriving DecidableEq, Repr

/-- One attachment added to the outgoing email message. -/
structure Attachment where
  data : Bytes
  maintype : String
  subtype : String
  filename : String
deriving DecidableEq, Repr

/-- The outgoing email message passed to the SMTP transport. -/
structure EmailMsg where
  fromAddr : String
  toAddr : String
  subject : String
  body : String
  attachments : List Attachment
deriving DecidableEq, Repr

/-- Events recorded while the email handler assembles its message. -/
inductive EmEvent
  | decodeAttempt (idx : Nat)
  | warn (msg : String)
  | fsRead (path : String)
deriving DecidableEq, Repr

/-- The status field of the email endpoint response body. -/
inductive EmailResponse
  | sent
  | error (msg : String)
deriving DecidableEq, Repr

/-- Full observable outcome of the email handler: the response body, the
events performed, and the message handed to the transport if one was. -/
structure SendOutcome where
  resp : EmailResponse
  events : List EmEvent
  sentMsg : Option EmailMsg
deriving DecidableEq, Repr

/-- Environment-derived configuration of the service: the SAVE_OUTPUTS
toggle of line 41, the static directory of line 27 and the SMTP settings
read in send_email; none models an unset environment variable. -/
structure Config where
  saveOutputs : Bool
  staticDir : String
  smtpHost : Option String := none
  smtpPortVar : Option String := none
  smtpUsername : Option String := none
  smtpPassword : Option String := none
  fromEmail : Option String := none

/-- UPLOAD_DIR of line 28. -/
def uploadDir (cfg : Config) : String := pathJoin cfg.staticDir "uploads"

/-- RESULT_DIR of line 29. -/
def resultDir (cfg : Config) : String := pathJoin cfg.staticDir "results"

/-- PDF_DIR of line 30. -/
def pdfDir (cfg : Config) : String := pathJoin cfg.staticDir "pdfs"

/-- Oracles for the external libraries the handlers call.  Each field is a
pure summary of one third-party capability the source treats as opaque. -/
structure Ext where
  cvDecode : Bytes → Option Img
  pilDecode : Bytes → Option Img
  modelPredict : Img → Img × Nat
  imencode : Img → Option Bytes
  b64encode : Bytes → String
  b64decode : String → Option Bytes
  writeOk : String → Bool
  fileExists : String → Bool
  readFile : String → Bytes
  renderPdf : List String → Bytes
  intParse : String → Except String Int
  smtpSend : Option String → Int → Option String → Option String → EmailMsg → Except String Unit

/-- Line 121 of app.py: the uploaded filename with every slash replaced
by an underscore. -/
def sanitizeFilename (s : String) : String := strReplace s "/" "_"

/-- Lines 79-91: decode with cv2, fall back to PIL, and fail (the
RuntimeError of line 90) when both decoders reject the bytes. -/
def numpy_from_bytes (ext : Ext) (b : Bytes) : Option Img :=
  match ext.cvDecode b with
  | some img => some img
  | none => ext.pilDecode b

/-- Lines 94-102: encode a pixel buffer with cv2.imencode and wrap the
bytes as a jpeg data URI; none when imencode reports failure. -/
def encode_image_to_data_uri (ext : Ext) (img : Img) : Option (String × Bytes) :=
  match ext.imencode img with
  | none => none
  | some bs => some ("data:image/jpeg;base64," ++ ext.b64encode bs, bs)

/-- An upload for which one iteration of the predict loop succeeds: the
bytes decode and the plotted model output re-encodes. -/
def stepOk (ext : Ext) (b : Bytes) : Bool :=
  match numpy_from_bytes ext b with
  | none => false
  | some img => (ext.imencode (ext.modelPredict img).1).isSome

/-- One iteration of the predict loop of lines 120-174, for one upload:
the filesystem events it performs and either the result record or the
pair of HTTP status code and error message of the aborting JSONResponse. -/
def predictStep (ext : Ext) (cfg : Config) (filename : String) (contents : Bytes) :
    List FsEvent × Except (Nat × String) ResultRecord :=
  let fname := sanitizeFilename filename
  match numpy_from_bytes ext contents with
  | none =>
    ([], Except.error (400, "Failed to decode " ++ (fname ++ ": Could not decode uploaded image")))
  | some img =>
    let upEvs := if cfg.saveOutputs then [FsEvent.write (pathJoin (uploadDir cfg) fname)] else []
    let plotted := (ext.modelPredict img).1
    let cnt := (ext.modelPredict img).2
    match encode_image_to_data_uri ext plotted with
    | none => (upEvs, Except.error (500, "Failed to encode result image: Image encoding failed"))
    | some (uri, _) =>
      let pr :=
        if cfg.saveOutputs then
          let outName := "result_" ++ fname
          let outPath := pathJoin (resultDir cfg) outName
          ([FsEvent.write outPath],
           if ext.writeOk outPath then some ("/static/results/" ++ outName) else none)
        else ([], none)
      (upEvs ++ pr.1,
       Except.ok { original_filename := fname, result_image_data_uri := uri,
                   result_image_url := pr.2, count := cnt, detections := [] })

/-- The predict loop over the whole batch, accumulating events and
aborting on the first per-image error. -/
def predictLoop (ext : Ext) (cfg : Config) :
    List (String × Bytes) → List FsEvent × Except (Nat × String) (List ResultRecord)
  | [] => ([], Except.ok [])
  | (fn, bs) :: rest =>
    let s := predictStep ext cfg fn bs
    match s.2 with
    | Except.error e => (s.1, Except.error e)
    | Except.ok rec =>
      let r := predictLoop ext cfg rest
      (s.1 ++ r.1,
       match r.2 with
       | Except.error e => Except.error e
       | Except.ok recs => Except.ok (rec :: recs))

/-- The predict endpoint of lines 108-176: response body plus the
filesystem events performed. -/
def predict (ext : Ext) (cfg : Config) (uploads : List (String × Bytes)) :
    PredictResponse × List FsEvent :=
  let r := predictLoop ext cfg uploads
  match r.2 with
  | Except.error e => (PredictResponse.httpError e.1 e.2, r.1)
  | Except.ok recs => (PredictResponse.ok recs, r.1)

/-- Rendering of a field inside a Python f-string: None renders as the
string None, any string renders as itself. -/
def renderOpt : Option String → String
  | none => "None"
  | some s => s

/-- The complaint generator of lines 192-211: the returned complaint
text, reproducing the template literally including its leading newline,
trailing spaces and trailing indentation. -/
def gen_complaint (req : ComplaintRequest) : String :=
  "\nSubject: Request for urgent pothole repair at " ++ renderOpt req.road_name ++ ", " ++
    renderOpt req.area ++ ", " ++ renderOpt req.city ++
  "\n\nRespected " ++ renderOpt req.authority_name ++
  ",\n\nI would like to bring to your attention that a total of " ++ toString req.pothole_count ++
  " potholes \nhave been detected on the road at " ++ renderOpt req.road_name ++ ", " ++
    renderOpt req.area ++ ", " ++ renderOpt req.city ++
  ". These potholes \npose a serious risk to commuters, especially at night.\n\n" ++
    renderOpt req.extra_details ++
  "\n\nI request you to kindly take immediate action and repair the road at the earliest.\n\nThank you,\n" ++
    renderOpt req.user_name ++ "\n    "

/-- The generate_pdf endpoint of lines 221-259: response body plus the
filesystem events performed. -/
def generate_pdf (ext : Ext) (cfg : Config) (complaint_text : String) :
    PdfResponse × List FsEvent :=
  let lines := (splitOnChar '\n' complaint_text.data).map (fun l => String.mk (rstripLine l))
  let pdfBytes := ext.renderPdf lines
  let uri := "data:application/pdf;base64," ++ ext.b64encode pdfBytes
  if cfg.saveOutputs then
    let filepath := pathJoin (pdfDir cfg) "complaint.pdf"
    ({ pdf_url := if ext.writeOk filepath then some "/static/pdfs/complaint.pdf" else none,
       pdf_data_uri := uri },
     [FsEvent.write filepath])
  else
    ({ pdf_url := none, pdf_data_uri := uri }, [])

/-- Python or-chaining of optional strings: an unset or empty value falls
through to the alternative. -/
def pyOr (a : Option String) (b : String) : String :=
  match a with
  | some s => if s = "" then b else s
  | none => b

/-- Line 295: the From header fallback chain. -/
def fromAddr (cfg : Config) : String :=
  pyOr cfg.fromEmail (pyOr cfg.smtpUsername "no-reply@example.com")

/-- Line 282: int applied to the SMTP_PORT variable or the literal 587
when the variable is unset or empty; parse failures raise. -/
def portResult (ext : Ext) (cfg : Config) : Except String Int :=
  match cfg.smtpPortVar with
  | none => Except.ok 587
  | some s => if s = "" then Except.ok 587 else ext.intParse s

/-- Lines 300-315: the loop over image_data_b64 entries, carrying the
enumerate index.  Empty entries and entries without the data: prefix are
skipped; a data: entry without a comma aborts with the ValueError of the
tuple unpacking; a base64 decode failure logs a warning and skips only
that attachment. -/
def attachB64 (ext : Ext) : Nat → List String → List EmEvent × Except String (List Attachment)
  | _, [] => ([], Except.ok [])
  | idx, d :: rest =>
    if d = "" then attachB64 ext (idx + 1) rest
    else if strStarts "data:" d then
      match splitFirstComma d with
      | none => ([], Except.error "not enough values to unpack (expected 2, got 1)")
      | some (header, b64data) =>
        let subtype := if strContains header "png" then "png" else "jpeg"
        let fname := "attachment_" ++ toString idx ++ "." ++ subtype
        let r := attachB64 ext (idx + 1) rest
        match ext.b64decode b64data with
        | some bytes =>
          (EmEvent.decodeAttempt idx :: r.1,
           match r.2 with
           | Except.ok as =>
             Except.ok ({ data := bytes, maintype := "image", subtype := subtype,
                          filename := fname } :: as)
           | Except.error e => Except.error e)
        | none =>
          (EmEvent.decodeAttempt idx ::
             EmEvent.warn ("Failed to decode/attach image_data_b64 idx=" ++ toString idx) :: r.1,
           r.2)
    else attachB64 ext (idx + 1) rest

/-- Lines 317-329: the loop over legacy image_urls entries.  A url is
resolved by replacing the string /static with the static directory; the
file is read and attached only when the url starts with /static, the
save toggle is on and the resolved path exists. -/
def attachDisk (ext : Ext) (cfg : Config) : List String → List EmEvent × List Attachment
  | [] => ([], [])
  | url :: rest =>
    let r := attachDisk ext cfg rest
    if strStarts "/static" url && cfg.saveOutputs then
      let filepath := strReplace url "/static" cfg.staticDir
      if ext.fileExists filepath then
        ({ data := ext.readFile filepath, maintype := "image", subtype := extSubtype filepath,
           filename := basenameP filepath } :: r.2 |> fun ats => (EmEvent.fsRead filepath :: r.1, ats))
      else r
    else r

/-- The send_email endpoint of lines 273-342.  The whole handler body is
wrapped in try and except, so every failure surfaces as an error status
in the response body: a port parse failure or a comma-less data: entry
aborts before the transport, and a transport failure is caught after the
message was assembled. -/
def send_email (ext : Ext) (cfg : Config) (req : EmailRequest) : SendOutcome :=
  match portResult ext cfg with
  | Except.error e => { resp := EmailResponse.error e, events := [], sentMsg := none }
  | Except.ok p =>
    let r1 := attachB64 ext 0 req.image_data_b64
    match r1.2 with
    | Except.error e => { resp := EmailResponse.error e, events := r1.1, sentMsg := none }
    | Except.ok ats1 =>
      let r2 := attachDisk ext cfg req.image_urls
      let msg : EmailMsg :=
        { fromAddr := fromAddr cfg, toAddr := req.to_email, subject := req.subject,
          body := req.body, attachments := ats1 ++ r2.2 }
      match ext.smtpSend cfg.smtpHost p cfg.smtpUsername cfg.smtpPassword msg with
      | Except.ok _ => { resp := EmailResponse.sent, events := r1.1 ++ r2.1, sentMsg := some msg }
      | Except.error e =>
        { resp := EmailResponse.error e, events := r1.1 ++ r2.1, sentMsg := some msg }

/-- Formalisation of the claim wording: a url is rooted under the
static-asset root when it is the root itself or sits strictly below it.
Written from the claim, to be compared with the startswith check of
line 319. -/
def rootedUnderStatic (url : String) : Bool :=
  url = "/static" || strStarts "/static/" url

/-- The filesystem events one successful predict iteration performs, as
a function of the configuration and the uploaded filename. -/
def stepEvents (cfg : Config) (filename : String) : List FsEvent :=
  if cfg.saveOutputs then
    [FsEvent.write (pathJoin (uploadDir cfg) (sanitizeFilename filename)),
     FsEvent.write (pathJoin (resultDir cfg) ("result_" ++ sanitizeFilename filename))]
  else []

/-- Appending strings concatenates the underlying character lists. -/
theorem data_append (s t : String) : (s ++ t).data = s.data ++ t.data := rfl

/-- Two strings with equal character lists are equal. -/
theorem stringDataEq {a b : String} (h : a.data = b.data) : a = b :=
  congrArg String.mk h

/-- Every list is a Boolean prefix of itself followed by anything. -/
theorem isPrefixL_self_append (s t : List Char) : isPrefixL s (s ++ t) = true := by
  induction s with
  | nil => rfl
  | cons a as ih => simp [isPrefixL, ih]

/-- A Boolean prefix is in particular a Boolean infix. -/
theorem isInfixL_of_isPrefixL {s l : List Char} (h : isPrefixL s l = true) :
    isInfixL s l = true := by
  cases l with
  | nil => simpa [isInfixL] using h
  | cons c rest => simp [isInfixL, h]

/-- A Boolean infix of a list is an infix of any left extension of it. -/
theorem isInfixL_append_right {s r : List Char} (x : List Char) (h : isInfixL s r = true) :
    isInfixL s (x ++ r) = true := by
  induction x with
  | nil => simpa
  | cons c cs ih => simp [isInfixL, ih]

/-- A string assembled around sub contains sub as a substring. -/
theorem strContains_append_middle (x s y : String) :
    strContains (x ++ (s ++ y)) s = true := by
  unfold strContains
  rw [data_append, data_append]
  exact isInfixL_append_right x.data (isInfixL_of_isPrefixL (isPrefixL_self_append s.data y.data))

/-- A successful predict iteration: it returns a record carrying the
sanitized filename, empty detections, no url without the save toggle, and
it performs exactly the events of stepEvents. -/
theorem predictStep_ok (ext : Ext) (cfg : Config) (fn : String) (bs : Bytes)
    (h : stepOk ext bs = true) :
    ∃ rec, (predictStep ext cfg fn bs).2 = Except.ok rec ∧
      rec.original_filename = sanitizeFilename fn ∧
      rec.detections = [] ∧
      (cfg.saveOutputs = false → rec.result_image_url = none) ∧
      (predictStep ext cfg fn bs).1 = stepEvents cfg fn := by
  unfold stepOk at h
  cases hd : numpy_from_bytes ext bs with
  | none => rw [hd] at h; simp at h
  | some img =>
    rw [hd] at h
    have h2 : (ext.imencode (ext.modelPredict img).1).isSome = true := h
    cases he : ext.imencode (ext.modelPredict img).1 with
    | none => rw [he] at h2; simp at h2
    | some ebs =>
      simp only [predictStep, hd, encode_image_to_data_uri, he, stepEvents]
      cases hs : cfg.saveOutputs <;> simp

/-- The predict loop on a batch whose every upload decodes and re-encodes:
it succeeds with one record per upload in input order, each record being
the one its own iteration produced, and the events are the per-iteration
events concatenated in order. -/
theorem predictLoop_ok (ext : Ext) (cfg : Config) (us : List (String × Bytes))
    (h : ∀ p ∈ us, stepOk ext p.2 = true) :
    ∃ recs, (predictLoop ext cfg us).2 = Except.ok recs ∧
      recs.length = us.length ∧
      (∀ (i : Nat) (fn : String) (bs : Bytes), us[i]? = some (fn, bs) →
        ∃ rec, recs[i]? = some rec ∧ (predictStep ext cfg fn bs).2 = Except.ok rec) ∧
      (predictLoop ext cfg us).1 = (us.map (fun p => stepEvents cfg p.1)).flatten := by
  induction us with
  | nil => exact ⟨[], rfl, rfl, by simp, rfl⟩
  | cons p rest ih =>
    obtain ⟨fn, bs⟩ := p
    have hh : stepOk ext bs = true := h (fn, bs) (List.mem_cons_self _ _)
    obtain ⟨rec, hrec, _, _, _, hevs⟩ := predictStep_ok ext cfg fn bs hh
    obtain ⟨recs, hrecs, hlen, hpt, hevs2⟩ := ih (fun q hq => h q (List.mem_cons_of_mem _ hq))
    refine ⟨rec :: recs, ?_, ?_, ?_, ?_⟩
    · simp only [predictLoop, hrec, hrecs]
    · simp [hlen]
    · intro i fn' bs' hi
      cases i with
      | zero =>
        simp only [List.getElem?_cons_zero, Option.some.injEq, Prod.mk.injEq] at hi
        refine ⟨rec, ?_, ?_⟩
        · simp
        · rw [← hi.1, ← hi.2]
          exact hrec
      | succ n =>
        simp only [List.getElem?_cons_succ] at hi
        obtain ⟨r0, hr0, hr1⟩ := hpt n fn' bs' hi
        refine ⟨r0, ?_, hr1⟩
        simpa using hr0
    · simp only [predictLoop, hrec, hevs, hevs2, List.map_cons, List.flatten_cons]

/-- The second component of the predict response is always the event list
of the loop, whether the loop aborted or not. -/
theorem predict_snd (ext : Ext) (cfg : Config) (us : List (String × Bytes)) :
    (predict ext cfg us).2 = (predictLoop ext cfg us).1 := by
  cases hx : (predictLoop ext cfg us).2 <;> simp [predict, hx]

/-- With the save toggle off, one predict iteration performs no events and
never sets a result url. -/
theorem predictStep_nosave (ext : Ext) (cfg : Config) (fn : String) (bs : Bytes)
    (h : cfg.saveOutputs = false) :
    (predictStep ext cfg fn bs).1 = [] ∧
    (∀ rec, (predictStep ext cfg fn bs).2 = Except.ok rec → rec.result_image_url = none) := by
  unfold predictStep
  cases hd : numpy_from_bytes ext bs with
  | none => simp
  | some img =>
    cases he : ext.imencode (ext.modelPredict img).1 with
    | none => simp [encode_image_to_data_uri, he, h]
    | some ebs =>
      simp only [encode_image_to_data_uri, he, h]
      refine ⟨by simp, ?_⟩
      intro rec hrec
      simp only [Bool.false_eq_true, if_false, Except.ok.injEq] at hrec
      rw [← hrec]

/-- With the save toggle off, the predict loop performs no events and every
record it returns has no result url. -/
theorem predictLoop_nosave (ext : Ext) (cfg : Config) (us : List (String × Bytes))
    (h : cfg.saveOutputs = false) :
    (predictLoop ext cfg us).1 = [] ∧
    (∀ recs, (predictLoop ext cfg us).2 = Except.ok recs →
      ∀ rec ∈ recs, rec.result_image_url = none) := by
  induction us with
  | nil =>
    refine ⟨rfl, ?_⟩
    intro recs hr rec hm
    simp only [predictLoop, Except.ok.injEq] at hr
    rw [← hr] at hm
    simp at hm
  | cons p rest ih =>
    obtain ⟨fn, bs⟩ := p
    obtain ⟨hev, hurl⟩ := predictStep_nosave ext cfg fn bs h
    obtain ⟨hev2, hurl2⟩ := ih
    constructor
    · cases hs : (predictStep ext cfg fn bs).2 with
      | error e => simp only [predictLoop, hs]; exact hev
      | ok rec => simp only [predictLoop, hs]; simp [hev, hev2]
    · intro recs hr rec hm
      cases hs : (predictStep ext cfg fn bs).2 with
      | error e => simp [predictLoop, hs] at hr
      | ok rec0 =>
        simp only [predictLoop, hs] at hr
        cases hx : (predictLoop ext cfg rest).2 with
        | error e => rw [hx] at hr; simp at hr
        | ok recs0 =>
          rw [hx] at hr
          simp only [Except.ok.injEq] at hr
          rw [← hr] at hm
          rcases List.mem_cons.mp hm with hm | hm
          · rw [hm]; exact hurl rec0 hs
          · exact hurl2 recs0 hx rec hm

/-- A failing decode makes one predict iteration abort with the 400 error
built from the sanitized filename, after performing no events. -/
theorem predictStep_decode_fail (ext : Ext) (cfg : Config) (fn : String) (bs : Bytes)
    (hbad : numpy_from_bytes ext bs = none) :
    (predictStep ext cfg fn bs).2 =
      Except.error (400,
        "Failed to decode " ++ (sanitizeFilename fn ++ ": Could not decode uploaded image")) ∧
    (predictStep ext cfg fn bs).1 = [] := by
  refine ⟨?_, ?_⟩ <;> simp [predictStep, hbad]

/-- When every upload before an undecodable one succeeds, the loop aborts
with the 400 error of that upload. -/
theorem predictLoop_abort (ext : Ext) (cfg : Config) (pre post : List (String × Bytes))
    (fn : String) (bs : Bytes)
    (hpre : ∀ p ∈ pre, stepOk ext p.2 = true)
    (hbad : numpy_from_bytes ext bs = none) :
    (predictLoop ext cfg (pre ++ (fn, bs) :: post)).2 =
      Except.error (400,
        "Failed to decode " ++ (sanitizeFilename fn ++ ": Could not decode uploaded image")) := by
  induction pre with
  | nil =>
    simp only [List.nil_append, predictLoop]
    rw [(predictStep_decode_fail ext cfg fn bs hbad).1]
  | cons q rest ih =>
    obtain ⟨qf, qb⟩ := q
    have hq : stepOk ext qb = true := hpre (qf, qb) (List.mem_cons_self _ _)
    obtain ⟨rec, hrec, _, _, _, _⟩ := predictStep_ok ext cfg qf qb hq
    simp only [List.cons_append, predictLoop, hrec, List.append_eq]
    rw [ih (fun p hp => hpre p (List.mem_cons_of_mem _ hp))]

/-- A string with the data: prefix is nonempty. -/
theorem ne_empty_of_data_prefix {d : String} (h : strStarts "data:" d = true) : d ≠ "" := by
  intro he
  rw [he] at h
  exact absurd h (by decide)

/-- When no data: entry lacks its comma, the attachment loop never aborts. -/
theorem attachB64_ok (ext : Ext) (l : List String) (n : Nat)
    (h : ∀ x ∈ l, x ≠ "" → strStarts "data:" x = true → (splitFirstComma x).isSome = true) :
    ∃ ats, (attachB64 ext n l).2 = Except.ok ats := by
  induction l generalizing n with
  | nil => exact ⟨[], rfl⟩
  | cons d rest ih =>
    have hrest := fun x hx => h x (List.mem_cons_of_mem _ hx)
    by_cases hde : d = ""
    · simp only [attachB64, hde, if_pos rfl]
      exact ih (n + 1) hrest
    · by_cases hds : strStarts "data:" d = true
      · have hsp := h d (List.mem_cons_self _ _) hde hds
        cases hspc : splitFirstComma d with
        | none => rw [hspc] at hsp; simp at hsp
        | some pr =>
          obtain ⟨h1, b1⟩ := pr
          obtain ⟨ats, hats⟩ := ih (n + 1) hrest
          cases hdec : ext.b64decode b1 with
          | some bytes =>
            refine ⟨{ data := bytes, maintype := "image",
                      subtype := if strContains h1 "png" then "png" else "jpeg",
                      filename := "attachment_" ++ toString n ++ "." ++
                        (if strContains h1 "png" then "png" else "jpeg") } :: ats, ?_⟩
            simp only [attachB64, if_neg hde, if_pos hds, hspc, hdec, hats]
          | none =>
            refine ⟨ats, ?_⟩
            simp only [attachB64, if_neg hde, if_pos hds, hspc, hdec, hats]
      · simp only [attachB64, if_neg hde, if_neg hds]
        exact ih (n + 1) hrest

/-- An entry whose base64 payload fails to decode contributes exactly the
same attachments and the same outcome as an entry that is skipped: the
attachment result of the list equals that of the list with the entry
blanked out. -/
theorem attachB64_set_blank (ext : Ext) (l : List String) (i n : Nat) (d h1 b1 : String)
    (hi : l[i]? = some d) (hds : strStarts "data:" d = true)
    (hsp : splitFirstComma d = some (h1, b1)) (hdec : ext.b64decode b1 = none) :
    (attachB64 ext n l).2 = (attachB64 ext n (l.set i "")).2 := by
  induction l generalizing i n with
  | nil => simp at hi
  | cons e rest ih =>
    cases i with
    | zero =>
      simp only [List.getElem?_cons_zero, Option.some.injEq] at hi
      subst hi
      have hne : e ≠ "" := ne_empty_of_data_prefix hds
      rw [List.set_cons_zero]
      simp [attachB64, hne, hds, hsp, hdec]
    | succ m =>
      simp only [List.getElem?_cons_succ] at hi
      rw [List.set_cons_succ]
      by_cases he : e = ""
      · simp only [attachB64, he, if_pos rfl]
        exact ih m (n + 1) hi
      · by_cases hes : strStarts "data:" e = true
        · cases hspc : splitFirstComma e with
          | none => simp [attachB64, he, hes, hspc]
          | some pr =>
            obtain ⟨eh, eb⟩ := pr
            have ihh := ih m (n + 1) hi
            cases hdece : ext.b64decode eb with
            | some bytes =>
              simp only [attachB64, if_neg he, if_pos hes, hspc, hdece]
              rw [ihh]
            | none =>
              simp only [attachB64, if_neg he, if_pos hes, hspc, hdece]
              exact ihh
        · simp only [attachB64, if_neg he, if_neg hes]
          exact ih m (n + 1) hi

/-- An entry that is empty or lacks the data: prefix contributes nothing
at all: blanking it changes neither events nor outcome. -/
theorem attachB64_set_skip (ext : Ext) (l : List String) (i n : Nat) (d : String)
    (hi : l[i]? = some d) (hd : d = "" ∨ strStarts "data:" d = false) :
    attachB64 ext n l = attachB64 ext n (l.set i "") := by
  induction l generalizing i n with
  | nil => simp at hi
  | cons e rest ih =>
    cases i with
    | zero =>
      simp only [List.getElem?_cons_zero, Option.some.injEq] at hi
      subst hi
      rw [List.set_cons_zero]
      rcases hd with hd | hd
      · rw [hd]
      · by_cases he : e = ""
        · rw [he]
        · simp [attachB64, he, hd]
    | succ m =>
      simp only [List.getElem?_cons_succ] at hi
      rw [List.set_cons_succ]
      by_cases he : e = ""
      · simp only [attachB64, he, if_pos rfl]
        exact ih m (n + 1) hi
      · by_cases hes : strStarts "data:" e = true
        · cases hspc : splitFirstComma e with
          | none => simp [attachB64, he, hes, hspc]
          | some pr =>
            obtain ⟨eh, eb⟩ := pr
            have ihh := ih m (n + 1) hi
            cases hdece : ext.b64decode eb with
            | some bytes =>
              simp only [attachB64, if_neg he, if_pos hes, hspc, hdece]
              rw [ihh]
            | none =>
              simp only [attachB64, if_neg he, if_pos hes, hspc, hdece]
              rw [ihh]
        · simp only [attachB64, if_neg he, if_neg hes]
          exact ih m (n + 1) hi

/-- Every decode-attempt event of the attachment loop comes from a
nonempty data:-prefixed entry, at the index the event carries. -/
theorem attachB64_event_src (ext : Ext) (l : List String) (n j : Nat)
    (h : EmEvent.decodeAttempt j ∈ (attachB64 ext n l).1) :
    ∃ (k : Nat) (d : String), l[k]? = some d ∧ j = n + k ∧ d ≠ "" ∧
      strStarts "data:" d = true := by
  induction l generalizing n with
  | nil => simp [attachB64] at h
  | cons e rest ih =>
    by_cases he : e = ""
    · simp only [attachB64, he, if_pos rfl] at h
      obtain ⟨k, d, h1, h2, h3, h4⟩ := ih (n + 1) h
      exact ⟨k + 1, d, by simpa using h1, by omega, h3, h4⟩
    · by_cases hes : strStarts "data:" e = true
      · cases hspc : splitFirstComma e with
        | none => simp [attachB64, he, hes, hspc] at h
        | some pr =>
          obtain ⟨eh, eb⟩ := pr
          cases hdece : ext.b64decode eb with
          | some bytes =>
            simp only [attachB64, if_neg he, if_pos hes, hspc, hdece,
              List.mem_cons, EmEvent.decodeAttempt.injEq] at h
            rcases h with h | h
            · exact ⟨0, e, by simp, by omega, he, hes⟩
            · obtain ⟨k, d, h1, h2, h3, h4⟩ := ih (n + 1) h
              exact ⟨k + 1, d, by simpa using h1, by omega, h3, h4⟩
          | none =>
            simp only [attachB64, if_neg he, if_pos hes, hspc, hdece,
              List.mem_cons, EmEvent.decodeAttempt.injEq] at h
            rcases h with h | h | h
            · exact ⟨0, e, by simp, by omega, he, hes⟩
            · exact absurd h (by simp)
            · obtain ⟨k, d, h1, h2, h3, h4⟩ := ih (n + 1) h
              exact ⟨k + 1, d, by simpa using h1, by omega, h3, h4⟩
      · simp only [attachB64, if_neg he, if_neg hes] at h
        obtain ⟨k, d, h1, h2, h3, h4⟩ := ih (n + 1) h
        exact ⟨k + 1, d, by simpa using h1, by omega, h3, h4⟩

/-- Every event of the disk-attachment loop is a filesystem read. -/
theorem attachDisk_events_read (ext : Ext) (cfg : Config) (urls : List String) :
    ∀ e ∈ (attachDisk ext cfg urls).1, ∃ pth, e = EmEvent.fsRead pth := by
  induction urls with
  | nil => simp [attachDisk]
  | cons url rest ih =>
    intro e he
    by_cases hc : (strStarts "/static" url && cfg.saveOutputs) = true
    · by_cases hf : ext.fileExists (strReplace url "/static" cfg.staticDir) = true
      · simp only [attachDisk, if_pos hc, if_pos hf, List.mem_cons] at he
        rcases he with he | he
        · exact ⟨_, he⟩
        · exact ih e he
      · simp only [attachDisk, if_pos hc, if_neg hf] at he
        exact ih e he
    · simp only [attachDisk, if_neg hc] at he
      exact ih e he

/-- Every attachment of the disk loop comes from a listed url that starts
with /static, with the save toggle on and the resolved path existing. -/
theorem attachDisk_src (ext : Ext) (cfg : Config) (urls : List String) :
    ∀ a ∈ (attachDisk ext cfg urls).2, cfg.saveOutputs = true ∧
      ∃ url ∈ urls, strStarts "/static" url = true ∧
        ext.fileExists (strReplace url "/static" cfg.staticDir) = true ∧
        a.filename = basenameP (strReplace url "/static" cfg.staticDir) := by
  induction urls with
  | nil => simp [attachDisk]
  | cons url rest ih =>
    intro a ha
    by_cases hc : (strStarts "/static" url && cfg.saveOutputs) = true
    · have h12 := hc
      simp only [Bool.and_eq_true] at h12
      obtain ⟨h1, h2⟩ := h12
      by_cases hf : ext.fileExists (strReplace url "/static" cfg.staticDir) = true
      · simp only [attachDisk, if_pos hc, if_pos hf, List.mem_cons] at ha
        rcases ha with ha | ha
        · exact ⟨h2, url, List.mem_cons_self _ _, h1, hf, by rw [ha]⟩
        · obtain ⟨hs, u, hu, p1, p2, p3⟩ := ih a ha
          exact ⟨hs, u, List.mem_cons_of_mem _ hu, p1, p2, p3⟩
      · simp only [attachDisk, if_pos hc, if_neg hf] at ha
        obtain ⟨hs, u, hu, p1, p2, p3⟩ := ih a ha
        exact ⟨hs, u, List.mem_cons_of_mem _ hu, p1, p2, p3⟩
    · simp only [attachDisk, if_neg hc] at ha
      obtain ⟨hs, u, hu, p1, p2, p3⟩ := ih a ha
      exact ⟨hs, u, List.mem_cons_of_mem _ hu, p1, p2, p3⟩

/-- A url failing any attach condition is skipped without affecting the
rest of the loop. -/
theorem attachDisk_skip (ext : Ext) (cfg : Config) (url : String) (rest : List String)
    (h : strStarts "/static" url = false ∨ cfg.saveOutputs = false ∨
      ext.fileExists (strReplace url "/static" cfg.staticDir) = false) :
    attachDisk ext cfg (url :: rest) = attachDisk ext cfg rest := by
  by_cases hc : (strStarts "/static" url && cfg.saveOutputs) = true
  · have hf : ¬ (ext.fileExists (strReplace url "/static" cfg.staticDir) = true) := by
      have h12 := hc
      simp only [Bool.and_eq_true] at h12
      rcases h with h | h | h
      · rw [h12.1] at h; exact absurd h (by decide)
      · rw [h12.2] at h; exact absurd h (by decide)
      · simp [h]
    simp only [attachDisk, if_pos hc, if_neg hf]
  · simp only [attachDisk, if_neg hc]

/-- Concrete oracle used by witnesses: bytes [1] decode with cv2 and [2]
with the PIL fallback, the model appends a marker and counts pixels,
nonempty buffers encode, the QUJD payload base64-decodes, every file
exists and holds [7], the port string 25 parses, and the transport
accepts every message. -/
def extA : Ext :=
  { cvDecode := fun b => if b = [1] then some [10] else none,
    pilDecode := fun b => if b = [2] then some [20] else none,
    modelPredict := fun i => (i ++ [9], i.length),
    imencode := fun i => if i = [] then none else some i,
    b64encode := fun b => "B" ++ toString b.length,
    b64decode := fun s => if s = "QUJD" then some [65, 66, 67] else none,
    writeOk := fun _ => true,
    fileExists := fun _ => true,
    readFile := fun _ => [7],
    renderPdf := fun _ => [1],
    intParse := fun s => if s = "25" then Except.ok 25 else Except.error "invalid literal",
    smtpSend := fun _ _ _ _ _ => Except.ok () }

/-- Oracle equal to extA except that its transport always fails with a
connection refused message. -/
def extErr : Ext :=
  { extA with smtpSend := fun _ _ _ _ _ => Except.error "connection refused" }

/-- Concrete configuration with the persistence toggle off. -/
def cfgOff : Config := { saveOutputs := false, staticDir := "/app/Backend/static" }

/-- Concrete configuration with the persistence toggle on. -/
def cfgOn : Config := { saveOutputs := true, staticDir := "/app/Backend/static" }

/-- C1, counterexample: for the one-image batch whose file is named
a/b.jpg and whose bytes decode with neither decoder, the endpoint returns
the 400 error built from the sanitized name a_b.jpg, and that message
does not contain the uploaded filename a/b.jpg, contradicting the claim
that the message contains the failing image's filename. -/
theorem C1_counterexample :
    (predict extA cfgOff [("a/b.jpg", [0])]).1 =
      PredictResponse.httpError 400 "Failed to decode a_b.jpg: Could not decode uploaded image" ∧
    strContains "Failed to decode a_b.jpg: Could not decode uploaded image" "a/b.jpg" = false := by
  decide

/-- C1 (amended): if every upload before an undecodable one both decodes
and re-encodes, the predict endpoint returns a 400 client error whose
message contains that image's sanitized filename (the uploaded name with
each slash replaced by an underscore), and no result records at all. -/
theorem C1_batch_abort (ext : Ext) (cfg : Config) (pre post : List (String × Bytes))
    (fn : String) (bs : Bytes)
    (hpre : ∀ p ∈ pre, stepOk ext p.2 = true)
    (hbad : numpy_from_bytes ext bs = none) :
    (predict ext cfg (pre ++ (fn, bs) :: post)).1 =
      PredictResponse.httpError 400
        ("Failed to decode " ++ (sanitizeFilename fn ++ ": Could not decode uploaded image")) ∧
    strContains
      ("Failed to decode " ++ (sanitizeFilename fn ++ ": Could not decode uploaded image"))
      (sanitizeFilename fn) = true ∧
    ∀ recs, (predict ext cfg (pre ++ (fn, bs) :: post)).1 ≠ PredictResponse.ok recs := by
  have herr := predictLoop_abort ext cfg pre post fn bs hpre hbad
  refine ⟨?_, strContains_append_middle _ _ _, ?_⟩
  · simp only [predict, herr]
  · intro recs
    simp only [predict, herr]
    simp

/-- Closed instance of the C1 theorem: a batch with one good image and
then one undecodable image named a/b.jpg aborts with the sanitized 400
message. -/
theorem C1_batch_abort_witness :
    (∀ p ∈ [("ok.jpg", ([1] : Bytes))], stepOk extA p.2 = true) ∧
    numpy_from_bytes extA [0] = none ∧
    (predict extA cfgOff ([("ok.jpg", [1])] ++ ("a/b.jpg", [0]) :: [])).1 =
      PredictResponse.httpError 400
        ("Failed to decode " ++
          (sanitizeFilename "a/b.jpg" ++ ": Could not decode uploaded image")) :=
  ⟨by decide, by decide,
    (C1_batch_abort extA cfgOff [("ok.jpg", [1])] [] "a/b.jpg" [0]
      (by decide) (by decide)).1⟩

/-- C2: for a batch whose every image decodes and re-encodes, the predict
endpoint returns exactly one result record per input image, in input
order, each with the sanitized filename of its input, a count at least
zero and an empty detections list. -/
theorem C2_per_image_results (ext : Ext) (cfg : Config) (us : List (String × Bytes))
    (h : ∀ p ∈ us, stepOk ext p.2 = true) :
    ∃ recs, (predict ext cfg us).1 = PredictResponse.ok recs ∧
      recs.length = us.length ∧
      ∀ (i : Nat) (fn : String) (bs : Bytes), us[i]? = some (fn, bs) →
        ∃ rec, recs[i]? = some rec ∧ rec.original_filename = sanitizeFilename fn ∧
          0 ≤ rec.count ∧ rec.detections = [] := by
  obtain ⟨recs, hok, hlen, hpt, _⟩ := predictLoop_ok ext cfg us h
  refine ⟨recs, by simp only [predict, hok], hlen, ?_⟩
  intro i fn bs hi
  obtain ⟨rec, hr, hstep⟩ := hpt i fn bs hi
  have hmem : (fn, bs) ∈ us := List.getElem?_mem hi
  obtain ⟨rec2, hstep2, hname, hdet, _, _⟩ := predictStep_ok ext cfg fn bs (h _ hmem)
  rw [hstep] at hstep2
  injection hstep2 with he2
  exact ⟨rec, hr, by rw [he2]; exact hname, Nat.zero_le _, by rw [he2]; exact hdet⟩

/-- Closed instance of the C2 theorem for a two-image batch. -/
theorem C2_per_image_results_witness :
    ∃ recs, (predict extA cfgOff [("a.jpg", [1]), ("b.png", [2])]).1 =
      PredictResponse.ok recs ∧ recs.length = 2 ∧
      ∀ (i : Nat) (fn : String) (bs : Bytes),
        ([("a.jpg", [1]), ("b.png", [2])] : List (String × Bytes))[i]? = some (fn, bs) →
        ∃ rec, recs[i]? = some rec ∧ rec.original_filename = sanitizeFilename fn ∧
          0 ≤ rec.count ∧ rec.detections = [] := by
  have h := C2_per_image_results extA cfgOff [("a.jpg", [1]), ("b.png", [2])] (by decide)
  simpa using h

/-- C3: with the persistence toggle off, the predict endpoint performs no
filesystem events and returns no result url, and the generate_pdf
endpoint performs no filesystem events and returns no pdf url. -/
theorem C3_no_save_no_writes (ext : Ext) (cfg : Config) (us : List (String × Bytes))
    (txt : String) (h : cfg.saveOutputs = false) :
    (predict ext cfg us).2 = [] ∧
    (∀ recs, (predict ext cfg us).1 = PredictResponse.ok recs →
      ∀ rec ∈ recs, rec.result_image_url = none) ∧
    (generate_pdf ext cfg txt).1.pdf_url = none ∧
    (generate_pdf ext cfg txt).2 = [] := by
  obtain ⟨hev, hurl⟩ := predictLoop_nosave ext cfg us h
  refine ⟨?_, ?_, ?_, ?_⟩
  · rw [predict_snd]; exact hev
  · intro recs hrecs
    have hx : (predictLoop ext cfg us).2 = Except.ok recs := by
      cases hy : (predictLoop ext cfg us).2 with
      | error e => simp [predict, hy] at hrecs
      | ok r =>
        simp only [predict, hy, PredictResponse.ok.injEq] at hrecs
        rw [hrecs]
    exact hurl recs hx
  · simp [generate_pdf, h]
  · simp [generate_pdf, h]

/-- Closed instance of the C3 theorem on a concrete batch and text. -/
theorem C3_no_save_no_writes_witness :
    (predict extA cfgOff [("a.jpg", [1])]).2 = [] ∧
    (∀ recs, (predict extA cfgOff [("a.jpg", [1])]).1 = PredictResponse.ok recs →
      ∀ rec ∈ recs, rec.result_image_url = none) ∧
    (generate_pdf extA cfgOff "A\nB").1.pdf_url = none ∧
    (generate_pdf extA cfgOff "A\nB").2 = [] :=
  C3_no_save_no_writes extA cfgOff [("a.jpg", [1])] "A\nB" rfl

/-- C9: in a successful batch with the save toggle on, every record
carries the sanitized filename, and the files written are exactly the
upload path and the result path built from the sanitized name of each
image, in batch order. -/
theorem C9_sanitized_paths (ext : Ext) (cfg : Config) (us : List (String × Bytes))
    (h : ∀ p ∈ us, stepOk ext p.2 = true) (hs : cfg.saveOutputs = true) :
    ∃ recs, (predict ext cfg us).1 = PredictResponse.ok recs ∧
      (∀ (i : Nat) (fn : String) (bs : Bytes), us[i]? = some (fn, bs) →
        ∃ rec, recs[i]? = some rec ∧ rec.original_filename = sanitizeFilename fn) ∧
      (predict ext cfg us).2 =
        (us.map (fun p =>
          [FsEvent.write (pathJoin (uploadDir cfg) (sanitizeFilename p.1)),
           FsEvent.write (pathJoin (resultDir cfg) ("result_" ++ sanitizeFilename p.1))])).flatten := by
  obtain ⟨recs, hok, _, hpt, hevs⟩ := predictLoop_ok ext cfg us h
  refine ⟨recs, by simp only [predict, hok], ?_, ?_⟩
  · intro i fn bs hi
    obtain ⟨rec, hr, hstep⟩ := hpt i fn bs hi
    have hmem : (fn, bs) ∈ us := List.getElem?_mem hi
    obtain ⟨rec2, hstep2, hname, _, _, _⟩ := predictStep_ok ext cfg fn bs (h _ hmem)
    rw [hstep] at hstep2
    injection hstep2 with he2
    exact ⟨rec, hr, by rw [he2]; exact hname⟩
  · rw [predict_snd, hevs]
    simp [stepEvents, hs]

/-- Closed instance of the C9 theorem on a concrete batch whose filename
contains a slash. -/
theorem C9_sanitized_paths_witness :
    ∃ recs, (predict extA cfgOn [("d/e.jpg", [1])]).1 = PredictResponse.ok recs ∧
      (∀ (i : Nat) (fn : String) (bs : Bytes),
        ([("d/e.jpg", [1])] : List (String × Bytes))[i]? = some (fn, bs) →
        ∃ rec, recs[i]? = some rec ∧ rec.original_filename = sanitizeFilename fn) ∧
      (predict extA cfgOn [("d/e.jpg", [1])]).2 =
        ([("d/e.jpg", [1])].map (fun (p : String × Bytes) =>
          [FsEvent.write (pathJoin (uploadDir cfgOn) (sanitizeFilename p.1)),
           FsEvent.write (pathJoin (resultDir cfgOn) ("result_" ++ sanitizeFilename p.1))])).flatten :=
  C9_sanitized_paths extA cfgOn [("d/e.jpg", [1])] (by decide) rfl

/-- The events of send_email are empty on a port failure, the base64-loop
events on an attachment abort, and otherwise the base64-loop events
followed by the disk-loop events. -/
theorem send_email_events (ext : Ext) (cfg : Config) (req : EmailRequest) :
    (send_email ext cfg req).events = [] ∨
    (send_email ext cfg req).events = (attachB64 ext 0 req.image_data_b64).1 ∨
    (send_email ext cfg req).events =
      (attachB64 ext 0 req.image_data_b64).1 ++ (attachDisk ext cfg req.image_urls).1 := by
  cases hp : portResult ext cfg with
  | error e0 => left; simp only [send_email, hp]
  | ok p =>
    cases hats : (attachB64 ext 0 req.image_data_b64).2 with
    | error e1 => right; left; simp only [send_email, hp, hats]
    | ok ats =>
      right; right
      cases hsd : ext.smtpSend cfg.smtpHost p cfg.smtpUsername cfg.smtpPassword
          { fromAddr := fromAddr cfg, toAddr := req.to_email, subject := req.subject,
            body := req.body,
            attachments := ats ++ (attachDisk ext cfg req.image_urls).2 } with
      | ok u => simp only [send_email, hp, hats, hsd]
      | error e2 => simp only [send_email, hp, hats, hsd]

/-- C4: with a transport that fails on every message, send_email always
returns a body whose status is error with some message, and when the port
parses and the attachment loop does not abort the message is exactly the
transport's; the handler is a total function into the response type, so a
transmission failure never escapes as an exception. -/
theorem C4_transmission_error_caught (ext : Ext) (cfg : Config) (req : EmailRequest)
    (e : String)
    (hsend : ∀ h p u pw m, ext.smtpSend h p u pw m = Except.error e) :
    (∃ m, (send_email ext cfg req).resp = EmailResponse.error m) ∧
    (∀ (p : Int) (ats : List Attachment), portResult ext cfg = Except.ok p →
      (attachB64 ext 0 req.image_data_b64).2 = Except.ok ats →
      (send_email ext cfg req).resp = EmailResponse.error e) := by
  constructor
  · cases hp : portResult ext cfg with
    | error e0 => exact ⟨e0, by simp only [send_email, hp]⟩
    | ok p =>
      cases hats : (attachB64 ext 0 req.image_data_b64).2 with
      | error e1 => exact ⟨e1, by simp only [send_email, hp, hats]⟩
      | ok ats => exact ⟨e, by simp only [send_email, hp, hats, hsend]⟩
  · intro p ats hp hats
    simp only [send_email, hp, hats, hsend]

/-- Closed instance of the C4 theorem with an unreachable relay. -/
theorem C4_witness :
    (send_email extErr cfgOff
      { to_email := "to@example.org", subject := "s", body := "b" }).resp =
      EmailResponse.error "connection refused" :=
  (C4_transmission_error_caught extErr cfgOff
      { to_email := "to@example.org", subject := "s", body := "b" } "connection refused"
      (fun _ _ _ _ _ => rfl)).2 587 [] rfl rfl

/-- C5: a data: entry whose base64 payload fails to decode is skipped on
its own: when no entry aborts the loop, the port parses and the transport
accepts the message, send_email still returns status sent, and the
attachment outcome equals that of the same list with the failing entry
blanked out, so every other attachment is still processed. -/
theorem C5_bad_b64_skipped (ext : Ext) (cfg : Config) (req : EmailRequest) (i : Nat)
    (d h1 b1 : String)
    (hi : req.image_data_b64[i]? = some d)
    (hds : strStarts "data:" d = true)
    (hsp : splitFirstComma d = some (h1, b1))
    (hdec : ext.b64decode b1 = none)
    (hnoab : ∀ x ∈ req.image_data_b64, x ≠ "" → strStarts "data:" x = true →
      (splitFirstComma x).isSome = true)
    (hport : ∃ p, portResult ext cfg = Except.ok p)
    (hsend : ∀ h p u pw m, ext.smtpSend h p u pw m = Except.ok ()) :
    (send_email ext cfg req).resp = EmailResponse.sent ∧
    (attachB64 ext 0 req.image_data_b64).2 =
      (attachB64 ext 0 (req.image_data_b64.set i "")).2 := by
  obtain ⟨p, hp⟩ := hport
  obtain ⟨ats, hats⟩ := attachB64_ok ext req.image_data_b64 0 hnoab
  exact ⟨by simp only [send_email, hp, hats, hsend],
    attachB64_set_blank ext req.image_data_b64 i 0 d h1 b1 hi hds hsp hdec⟩

/-- Closed instance of the C5 theorem: one good png attachment and one
undecodable payload still give status sent, with the bad entry acting as
a blank. -/
theorem C5_witness :
    (send_email extA cfgOff
      { to_email := "t@x", subject := "s", body := "b",
        image_data_b64 := ["data:image/png;base64,QUJD", "data:image/jpeg;base64,zz"] }).resp =
      EmailResponse.sent ∧
    (attachB64 extA 0 ["data:image/png;base64,QUJD", "data:image/jpeg;base64,zz"]).2 =
      (attachB64 extA 0
        (["data:image/png;base64,QUJD", "data:image/jpeg;base64,zz"].set 1 "")).2 :=
  C5_bad_b64_skipped extA cfgOff
    { to_email := "t@x", subject := "s", body := "b",
      image_data_b64 := ["data:image/png;base64,QUJD", "data:image/jpeg;base64,zz"] }
    1 "data:image/jpeg;base64,zz" "data:image/jpeg;base64" "zz"
    (by decide) (by decide) (by decide) (by decide) (by decide) ⟨587, rfl⟩
    (fun _ _ _ _ _ => rfl)

/-- C8: an image_data_b64 entry that is empty or lacks the data: prefix
is skipped silently: no decode attempt is recorded for its index, the
list behaves exactly as if the entry were blank, and no decode-attempt
event for its index appears among the events of the whole handler. -/
theorem C8_nondata_skipped (ext : Ext) (cfg : Config) (l : List String) (i : Nat)
    (d : String) (hi : l[i]? = some d)
    (hd : d = "" ∨ strStarts "data:" d = false) :
    EmEvent.decodeAttempt i ∉ (attachB64 ext 0 l).1 ∧
    attachB64 ext 0 l = attachB64 ext 0 (l.set i "") ∧
    ∀ req : EmailRequest, req.image_data_b64 = l →
      EmEvent.decodeAttempt i ∉ (send_email ext cfg req).events := by
  have hnot : EmEvent.decodeAttempt i ∉ (attachB64 ext 0 l).1 := by
    intro hmem
    obtain ⟨k, d2, hk, hj, hne, hds⟩ := attachB64_event_src ext l 0 i hmem
    have hki : k = i := by omega
    subst hki
    rw [hi] at hk
    injection hk with hk
    subst hk
    rcases hd with hd | hd
    · exact hne hd
    · rw [hds] at hd
      simp at hd
  refine ⟨hnot, attachB64_set_skip ext l i 0 d hi hd, ?_⟩
  intro req hreq hmem
  rcases send_email_events ext cfg req with hev | hev | hev
  · rw [hev] at hmem
    simp at hmem
  · rw [hev, hreq] at hmem
    exact hnot hmem
  · rw [hev, hreq] at hmem
    rcases List.mem_append.mp hmem with hmem | hmem
    · exact hnot hmem
    · obtain ⟨pth, hpth⟩ := attachDisk_events_read ext cfg req.image_urls _ hmem
      simp at hpth

/-- Closed instance of the C8 theorem: the entry xyz at index 1 is never
decode-attempted and acts as a blank. -/
theorem C8_witness :
    EmEvent.decodeAttempt 1 ∉ (attachB64 extA 0 ["", "xyz", "data:image/png;base64,QUJD"]).1 ∧
    attachB64 extA 0 ["", "xyz", "data:image/png;base64,QUJD"] =
      attachB64 extA 0 (["", "xyz", "data:image/png;base64,QUJD"].set 1 "") ∧
    ∀ req : EmailRequest, req.image_data_b64 = ["", "xyz", "data:image/png;base64,QUJD"] →
      EmEvent.decodeAttempt 1 ∉ (send_email extA cfgOff req).events :=
  C8_nondata_skipped extA cfgOff ["", "xyz", "data:image/png;base64,QUJD"] 1 "xyz"
    (by decide) (Or.inr (by decide))

/-- C6, counterexample: with the citizen-name field omitted the complaint
text contains the default Concerned Citizen and differs from the text
whose citizen name is explicitly the empty string, so an omitted citizen
name does not render as an empty string. -/
theorem C6_counterexample :
    strContains (gen_complaint { pothole_count := 3 }) "Concerned Citizen" = true ∧
    gen_complaint { pothole_count := 3 } ≠
      gen_complaint { pothole_count := 3, user_name := some "" } := by
  decide

/-- C6 (amended): omitted road name, area, city and extra details default
to the empty string, omitted citizen and authority names default to
Concerned Citizen and Municipal Commissioner, and the fully-defaulted
complaint renders exactly the template with empty strings and those two
names spliced in. -/
theorem C6_defaults_render (c : Int) :
    ({ pothole_count := c } : ComplaintRequest).road_name = some "" ∧
    ({ pothole_count := c } : ComplaintRequest).area = some "" ∧
    ({ pothole_count := c } : ComplaintRequest).city = some "" ∧
    ({ pothole_count := c } : ComplaintRequest).extra_details = some "" ∧
    ({ pothole_count := c } : ComplaintRequest).user_name = some "Concerned Citizen" ∧
    ({ pothole_count := c } : ComplaintRequest).authority_name =
      some "Municipal Commissioner" ∧
    renderOpt (some "") = "" ∧
    gen_complaint { pothole_count := 3 } =
      "\nSubject: Request for urgent pothole repair at , , \n\nRespected Municipal Commissioner,\n\nI would like to bring to your attention that a total of 3 potholes \nhave been detected on the road at , , . These potholes \npose a serious risk to commuters, especially at night.\n\n\n\nI request you to kindly take immediate action and repair the road at the earliest.\n\nThank you,\nConcerned Citizen\n    " := by
  refine ⟨rfl, rfl, rfl, rfl, rfl, rfl, rfl, ?_⟩
  decide

/-- C7, counterexample: the url /staticx passes the startswith check of
line 319 although it is not rooted under the static-asset root, and with
the toggle on and the resolved file existing it gets attached, refuting
the only-if direction of the claim. -/
theorem C7_counterexample :
    rootedUnderStatic "/staticx" = false ∧
    (attachDisk extA cfgOn ["/staticx"]).2 =
      [{ data := [7], maintype := "image", subtype := "octet-stream",
         filename := "staticx" }] := by
  decide

/-- C7 (amended): a disk-path reference is attached only if the toggle is
on, the url starts with the string /static, and the resolved path (the
url with every occurrence of /static replaced by the static directory)
exists; a reference failing any of these conditions is skipped without
affecting the rest of the loop. -/
theorem C7_disk_refs (ext : Ext) (cfg : Config) (urls : List String) :
    (∀ a ∈ (attachDisk ext cfg urls).2, cfg.saveOutputs = true ∧
      ∃ url ∈ urls, strStarts "/static" url = true ∧
        ext.fileExists (strReplace url "/static" cfg.staticDir) = true ∧
        a.filename = basenameP (strReplace url "/static" cfg.staticDir)) ∧
    (∀ (url : String) (rest : List String),
      strStarts "/static" url = false ∨ cfg.saveOutputs = false ∨
        ext.fileExists (strReplace url "/static" cfg.staticDir) = false →
      attachDisk ext cfg (url :: rest) = attachDisk ext cfg rest) :=
  ⟨attachDisk_src ext cfg urls, fun url rest h => attachDisk_skip ext cfg url rest h⟩

/-- Closed instance of the C7 theorem at a well-formed static url. -/
theorem C7_disk_refs_witness :
    cfgOn.saveOutputs = true ∧
    ∃ url ∈ ["/static/results/r.jpg"], strStarts "/static" url = true ∧
      extA.fileExists (strReplace url "/static" cfgOn.staticDir) = true ∧
      ({ data := [7], maintype := "image", subtype := "jpeg",
         filename := "r.jpg" } : Attachment).filename =
        basenameP (strReplace url "/static" cfgOn.staticDir) :=
  (C7_disk_refs extA cfgOn ["/static/results/r.jpg"]).1
    { data := [7], maintype := "image", subtype := "jpeg", filename := "r.jpg" }
    (by decide)

/-- C10, counterexample: with the from-address set to the empty string
and a username configured, the From header is the username rather than
the configured from-address, so the chain keys on non-emptiness and not
merely on the variable being set. -/
theorem C10_counterexample :
    ({ saveOutputs := false, staticDir := "", fromEmail := some "",
       smtpUsername := some "ops@example.org" } : Config).fromEmail = some "" ∧
    fromAddr { saveOutputs := false, staticDir := "", fromEmail := some "",
               smtpUsername := some "ops@example.org" } = "ops@example.org" ∧
    (send_email extA
      { saveOutputs := false, staticDir := "", fromEmail := some "",
        smtpUsername := some "ops@example.org" }
      { to_email := "t@x", subject := "s", body := "b" }).sentMsg =
      some { fromAddr := "ops@example.org", toAddr := "t@x", subject := "s",
             body := "b", attachments := [] } ∧
    "ops@example.org" ≠ "" := by
  decide

/-- C10 (amended): the From header is the configured from-address when it
is set and nonempty, else the SMTP username when set and nonempty, else
the literal no-reply@example.com. -/
theorem C10_from_chain (cfg : Config) :
    (∀ f, cfg.fromEmail = some f → f ≠ "" → fromAddr cfg = f) ∧
    ((cfg.fromEmail = none ∨ cfg.fromEmail = some "") →
      ∀ u, cfg.smtpUsername = some u → u ≠ "" → fromAddr cfg = u) ∧
    ((cfg.fromEmail = none ∨ cfg.fromEmail = some "") →
      (cfg.smtpUsername = none ∨ cfg.smtpUsername = some "") →
      fromAddr cfg = "no-reply@example.com") := by
  refine ⟨?_, ?_, ?_⟩
  · intro f hf hne
    simp [fromAddr, pyOr, hf, hne]
  · intro hf u hu hne
    rcases hf with hf | hf <;> simp [fromAddr, pyOr, hf, hu, hne]
  · intro hf hu
    rcases hf with hf | hf <;> rcases hu with hu | hu <;> simp [fromAddr, pyOr, hf, hu]

/-- Closed instances of the three branches of the C10 theorem. -/
theorem C10_from_chain_witness :
    fromAddr { saveOutputs := false, staticDir := "", fromEmail := some "from@x" } = "from@x" ∧
    fromAddr { saveOutputs := false, staticDir := "", smtpUsername := some "u@x" } = "u@x" ∧
    fromAddr { saveOutputs := false, staticDir := "" } = "no-reply@example.com" :=
  ⟨(C10_from_chain _).1 "from@x" rfl (by decide),
   (C10_from_chain _).2.1 (Or.inl rfl) "u@x" rfl (by decide),
   (C10_from_chain _).2.2 (Or.inl rfl) (Or.inl rfl)⟩

end PotholeApp
